import Mathlib

/-!
Shallow embedding of the DoHlyzer flow-statistics core
(`src/Flow.py` and `src/ContElements/TimeDiff.py`).

Numeric modelling choices: Python floats are modelled as exact rationals
(`ℚ`); the square root used by `numpy.sqrt` forces the standard-deviation
family (`get_std`, `get_skew`, `get_skew2`, `get_cov`) into `ℝ`.
Python's `ZeroDivisionError` is modelled by `Option`-valued division in
the grand-mean aggregator, the one place where a computed denominator
occurs.  Library statistics (`numpy.mean`, `numpy.var`, `numpy.median`,
`scipy.stats.mode`) are embedded by their documented mathematical
definitions: arithmetic mean, population variance, sorted-middle median,
and smallest most-frequent value.
-/

namespace DoHlyzer

/-- Direction tag of a packet inside a flow
(`ContElements.Context.PacketDirection`). -/
inductive PacketDirection where
  | FORWARD
  | REVERSE
deriving DecidableEq, Repr

/-- The one attribute of a captured packet that the flow-statistics core
reads: its timestamp in seconds (`packet.time` in the source). -/
structure Packet where
  time : ℚ
deriving DecidableEq, Repr

/-- State of a `Flow` object (`src/Flow.py`): the flow key derived at
construction, the capture interface, the ordered packet list and the
latest timestamp seen. -/
structure Flow where
  dest_ip : String
  src_ip : String
  src_port : ℕ
  dest_port : ℕ
  interface : String
  packets : List (Packet × PacketDirection)
  latest_timestamp : ℚ
deriving DecidableEq, Repr

namespace Flow

/-- Embedding of `Flow.add_packet`: appends `(packet, direction)` to
`self.packets` and sets `self.latest_timestamp` to
`max([packet.time, self.latest_timestamp])`. -/
def add_packet (f : Flow) (packet : Packet) (direction : PacketDirection) : Flow :=
  { f with
    packets := f.packets ++ [(packet, direction)]
    latest_timestamp := max packet.time f.latest_timestamp }

end Flow

/-- Arithmetic mean of a list, `numpy.mean`; only applied to non-empty
lists by the guarded callers. -/
def listMean (s : List ℚ) : ℚ := s.sum / s.length

/-- Population variance of a list, `numpy.var` with its default
`ddof=0`. -/
def popVar (s : List ℚ) : ℚ :=
  (s.map fun x => (x - listMean s) ^ 2).sum / s.length

/-- Median of a list, `numpy.median`: sort ascending, take the middle
element for odd length and the average of the two middle elements for
even length.  (`numpy.median([])` is NaN in the source; no claim touches
that case and the embedding returns `0` there.) -/
def listMedian (s : List ℚ) : ℚ :=
  let sorted := s.insertionSort (· ≤ ·)
  let n := s.length
  if n % 2 = 1 then sorted.getD (n / 2) 0
  else (sorted.getD (n / 2 - 1) 0 + sorted.getD (n / 2) 0) / 2

/-- Largest multiplicity occurring in the list. -/
def maxCount (s : List ℚ) : ℕ :=
  ((s.map fun x => s.count x).maximum).unbot' 0

/-- Mode of a list, `scipy.stats.mode`: the most frequent value, ties
broken by the smallest value; only applied to non-empty lists by the
guarded caller. -/
def listMode (s : List ℚ) : ℚ :=
  ((s.filter fun x => s.count x == maxCount s).minimum).untop' (-1)

namespace TimeDiff

/-- Loop body of `TimeDiff.get_dif`: walks the packet list carrying the
previous `(temp_packet, temp_direction)` pair and emits
`packet.time - temp_packet.time` whenever a FORWARD packet is
immediately followed by a REVERSE packet. -/
def getDifAux : Option (Packet × PacketDirection) → List (Packet × PacketDirection) → List ℚ
  | _, [] => []
  | none, (p, d) :: rest => getDifAux (some (p, d)) rest
  | some (tp, td), (p, d) :: rest =>
    if td = PacketDirection.FORWARD ∧ d = PacketDirection.REVERSE then
      (p.time - tp.time) :: getDifAux (some (p, d)) rest
    else
      getDifAux (some (p, d)) rest

/-- Embedding of `TimeDiff.get_dif`: the timing sample series of a flow. -/
def get_dif (f : Flow) : List ℚ := getDifAux none f.packets

/-- Embedding of `TimeDiff.get_var`: population variance of the series,
`-1` on the empty series. -/
def get_var (f : Flow) : ℚ :=
  if (get_dif f).length ≠ 0 then popVar (get_dif f) else -1

/-- Embedding of `TimeDiff.get_mean`: mean of the series, `-1` on the
empty series. -/
def get_mean (f : Flow) : ℚ :=
  if (get_dif f).length ≠ 0 then listMean (get_dif f) else -1

/-- Embedding of `TimeDiff.get_median`: unguarded `numpy.median` of the
series. -/
def get_median (f : Flow) : ℚ := listMedian (get_dif f)

/-- Embedding of `TimeDiff.get_mode`: mode of the series, `-1` on the
empty series. -/
def get_mode (f : Flow) : ℚ :=
  if (get_dif f).length ≠ 0 then listMode (get_dif f) else -1

/-- Embedding of `TimeDiff.get_std`: `numpy.sqrt` of `get_var`, `-1` on
the empty series. -/
noncomputable def get_std (f : Flow) : ℝ :=
  if (get_dif f).length ≠ 0 then Real.sqrt ((get_var f : ℚ) : ℝ) else -1

/-- Embedding of `TimeDiff.get_skew`: `3 * (mean - median) / std`, with
`-10` when `std == 0`. -/
noncomputable def get_skew (f : Flow) : ℝ :=
  let mean : ℝ := (get_mean f : ℝ)
  let median : ℝ := (get_median f : ℝ)
  let dif : ℝ := 3 * (mean - median)
  let std : ℝ := get_std f
  if std ≠ 0 then dif / std else -10

/-- Embedding of `TimeDiff.get_skew2`: `(mean - mode) / std`, with `-10`
when `std == 0`. -/
noncomputable def get_skew2 (f : Flow) : ℝ :=
  let mean : ℝ := (get_mean f : ℝ)
  let mode : ℝ := (get_mode f : ℝ)
  let dif : ℝ := mean - mode
  let std : ℝ := get_std f
  if std ≠ 0 then dif / std else -10

/-- Embedding of `TimeDiff.get_cov`: `std / mean`, with `-1` when
`mean == 0`. -/
noncomputable def get_cov (f : Flow) : ℝ :=
  if get_mean f ≠ 0 then get_std f / (get_mean f : ℝ) else -1

end TimeDiff

/-- Division raising Python's `ZeroDivisionError`, modelled as `none`. -/
def qdiv? (a b : ℚ) : Option ℚ :=
  if b = 0 then none else some (a / b)

/-- Process-wide class-level state of `TimeDiff`:
`TimeDiff.mean_count` and `TimeDiff.grand_total`. -/
structure GrandState where
  mean_count : ℕ
  grand_total : ℚ
deriving DecidableEq, Repr

/-- Embedding of `TimeDiff._get_grand_total` with the current flow mean
`m` standing for `self.get_mean()`: on the very first call sets the
total to `m - m`, afterwards adds `m`; increments the count; returns
the new total together with the new class-level state. -/
def grandTotalStep (st : GrandState) (m : ℚ) : ℚ × GrandState :=
  let total := if st.mean_count = 0 then m - m else st.grand_total + m
  (total, ⟨st.mean_count + 1, total⟩)

/-- Embedding of `TimeDiff.get_grand_mean` with the current flow mean
`m` standing for `self.get_mean()`.  Python evaluates the numerator
`self._get_grand_total()` before reading `TimeDiff.mean_count` in the
denominator, so the denominator sees the already-incremented count. -/
def getGrandMean (st : GrandState) (m : ℚ) : Option (ℚ × GrandState) :=
  if st.mean_count > 1 then
    let p := grandTotalStep st m
    Option.map (fun q => (q, p.2)) (qdiv? p.1 ((p.2.mean_count : ℚ) - 1))
  else
    let p := grandTotalStep st m
    Option.map (fun q => (q, p.2)) (qdiv? p.1 (p.2.mean_count : ℚ))

/-- Modelled from the spec (refinement target for the series-extraction
claim): for every adjacent pair where a Forward packet is immediately
followed in arrival order by a Reverse packet, emit
`reverse.timestamp - forward.timestamp`; every other adjacent pair
emits nothing. -/
def difSpec (ps : List (Packet × PacketDirection)) : List ℚ :=
  (ps.zip ps.tail).filterMap fun pq =>
    if pq.1.2 = PacketDirection.FORWARD ∧ pq.2.2 = PacketDirection.REVERSE then
      some (pq.2.1.time - pq.1.1.time)
    else none

/-- Flow with no packets at all; its timing series is empty. -/
def emptyFlow : Flow :=
  ⟨"10.0.0.1", "10.0.0.2", 443, 53533, "enp0s3", [], 0⟩

/-- Flow whose packets arrive at timestamps 0.0 (Forward), 0.1 (Reverse),
0.2 (Forward), 0.5 (Reverse). -/
def c4flow : Flow :=
  ⟨"10.0.0.1", "10.0.0.2", 443, 53533, "enp0s3",
    [(⟨0⟩, PacketDirection.FORWARD), (⟨1/10⟩, PacketDirection.REVERSE),
      (⟨2/10⟩, PacketDirection.FORWARD), (⟨5/10⟩, PacketDirection.REVERSE)], 1/2⟩

/-- Flow whose timing series is `[1, 1]`: all deltas identical, so the
standard deviation is zero. -/
def eqFlow : Flow :=
  ⟨"10.0.0.1", "10.0.0.2", 443, 53533, "enp0s3",
    [(⟨0⟩, PacketDirection.FORWARD), (⟨1⟩, PacketDirection.REVERSE),
      (⟨2⟩, PacketDirection.FORWARD), (⟨3⟩, PacketDirection.REVERSE)], 3⟩

/-- Flow whose timing series is `[1, 1, 2, 2]`: two values tied for most
frequent. -/
def modeFlow : Flow :=
  ⟨"10.0.0.1", "10.0.0.2", 443, 53533, "enp0s3",
    [(⟨0⟩, PacketDirection.FORWARD), (⟨1⟩, PacketDirection.REVERSE),
      (⟨10⟩, PacketDirection.FORWARD), (⟨11⟩, PacketDirection.REVERSE),
      (⟨20⟩, PacketDirection.FORWARD), (⟨22⟩, PacketDirection.REVERSE),
      (⟨30⟩, PacketDirection.FORWARD), (⟨32⟩, PacketDirection.REVERSE)], 32⟩

/-- Helper: `get_std` on a non-empty series is the square root of
`get_var`. -/
lemma get_std_of_ne_nil (f : Flow) (h : TimeDiff.get_dif f ≠ []) :
    TimeDiff.get_std f = Real.sqrt ((TimeDiff.get_var f : ℚ) : ℝ) := by
  simp [TimeDiff.get_std, List.length_eq_zero, h]

/-- Helper: unfolding `difSpec` on two explicit leading elements. -/
lemma difSpec_cons (e p : Packet × PacketDirection) (rest : List (Packet × PacketDirection)) :
    difSpec (e :: p :: rest) =
      (if e.2 = PacketDirection.FORWARD ∧ p.2 = PacketDirection.REVERSE then
        [p.1.time - e.1.time] else []) ++ difSpec (p :: rest) := by
  by_cases h : e.2 = PacketDirection.FORWARD ∧ p.2 = PacketDirection.REVERSE <;>
    simp [difSpec, List.filterMap_cons, h]

/-- Helper: the loop of `get_dif`, started with a remembered previous
packet, computes exactly the spec-side extraction over the list headed
by that packet. -/
lemma getDifAux_some_eq_difSpec (ps : List (Packet × PacketDirection))
    (e : Packet × PacketDirection) :
    TimeDiff.getDifAux (some e) ps = difSpec (e :: ps) := by
  induction ps generalizing e with
  | nil => rfl
  | cons p rest ih =>
    obtain ⟨tp, td⟩ := e
    obtain ⟨pp, pd⟩ := p
    rw [difSpec_cons]
    by_cases h : td = PacketDirection.FORWARD ∧ pd = PacketDirection.REVERSE <;>
      simp [TimeDiff.getDifAux, h, ih]

/-- Claim C9: `add_packet` appends `(packet, direction)` at the end of
the packet sequence, sets `latest_timestamp` to the maximum of its old
value and the packet's timestamp (hence `latest_timestamp` is
monotonically non-decreasing), and changes no other field of the
flow. -/
theorem claimC9_add_packet (f : Flow) (p : Packet) (d : PacketDirection) :
    (f.add_packet p d).packets = f.packets ++ [(p, d)] ∧
    (f.add_packet p d).latest_timestamp = max p.time f.latest_timestamp ∧
    f.latest_timestamp ≤ (f.add_packet p d).latest_timestamp ∧
    (f.add_packet p d).dest_ip = f.dest_ip ∧
    (f.add_packet p d).src_ip = f.src_ip ∧
    (f.add_packet p d).src_port = f.src_port ∧
    (f.add_packet p d).dest_port = f.dest_port ∧
    (f.add_packet p d).interface = f.interface := by
  refine ⟨rfl, rfl, ?_, rfl, rfl, rfl, rfl, rfl⟩
  simp [Flow.add_packet]

/-- Claim C5: the timing sample series of a flow contains exactly one
element `reverse.timestamp - forward.timestamp` for each adjacent pair,
in arrival order, where a Forward packet is immediately followed by a
Reverse packet; every other adjacent pair contributes nothing.  Stated
as a refinement: the loop of `get_dif` equals the spec-side
`difSpec` extraction. -/
theorem claimC5_get_dif_spec (f : Flow) : TimeDiff.get_dif f = difSpec f.packets := by
  rw [TimeDiff.get_dif]
  cases hp : f.packets with
  | nil => rfl
  | cons e rest =>
    obtain ⟨p, d⟩ := e
    rw [show TimeDiff.getDifAux none ((p, d) :: rest) = TimeDiff.getDifAux (some (p, d)) rest
      from rfl]
    exact getDifAux_some_eq_difSpec rest (p, d)

/-- Claim C1 counterexample: starting from the initial state
(`count = 0`, `total = 0`), folding the flow mean `2.0` through
`get_grand_mean` returns `0.0`, not the `2.0` the claim states. -/
theorem claimC1_counterexample :
    getGrandMean ⟨0, 0⟩ 2 = some (0, ⟨1, 0⟩) ∧ (0 : ℚ) ≠ 2 := by
  constructor
  · norm_num [getGrandMean, grandTotalStep, qdiv?]
  · norm_num

/-- Claim C1 (amended): `get_grand_mean` first performs the fold
(incrementing `count` and updating `total`), and only then reads the
divisor, so with pre-call count `c` it returns `new_total / c` when
`c > 1` and `new_total / (c + 1)` otherwise.  Folding the flow means
`2.0, 4.0, 6.0` in that order from the initial state therefore returns
`0.0` (total `0`, count `1`), then `2.0` (total `4`, count `2`), then
`5.0` (total `10`, count `3`). -/
theorem claimC1_amended :
    getGrandMean ⟨0, 0⟩ 2 = some (0, ⟨1, 0⟩) ∧
    getGrandMean ⟨1, 0⟩ 4 = some (2, ⟨2, 4⟩) ∧
    getGrandMean ⟨2, 4⟩ 6 = some (5, ⟨3, 10⟩) ∧
    ∀ (st : GrandState) (m : ℚ),
      getGrandMean st m =
        some ((grandTotalStep st m).1 /
          (if st.mean_count > 1 then (st.mean_count : ℚ) else (st.mean_count : ℚ) + 1),
          (grandTotalStep st m).2) := by
  refine ⟨by norm_num [getGrandMean, grandTotalStep, qdiv?],
    by norm_num [getGrandMean, grandTotalStep, qdiv?],
    by norm_num [getGrandMean, grandTotalStep, qdiv?], ?_⟩
  intro st m
  obtain ⟨c, t⟩ := st
  by_cases h : c > 1
  · have hc0 : (c : ℚ) ≠ 0 := Nat.cast_ne_zero.mpr (by omega)
    have hcast : ((c + 1 : ℕ) : ℚ) - 1 = (c : ℚ) := by push_cast; ring
    simp only [getGrandMean, grandTotalStep, qdiv?, h, if_true]
    simp [hcast, hc0, h]
  · have hc1 : ((c : ℚ) + 1) ≠ 0 := by positivity
    simp only [getGrandMean, grandTotalStep, qdiv?, h, if_false]
    simp [hc1, h]

/-- Claim C3 counterexample: computing the grand mean before any fold
has occurred (process-wide count still `0`) does not raise a division
by zero: the call succeeds and silently returns `0.0`. -/
theorem claimC3_counterexample :
    getGrandMean ⟨0, 0⟩ 2 = some (0, ⟨1, 0⟩) ∧
    (getGrandMean ⟨0, 0⟩ 2).isSome = true := by
  have h : getGrandMean ⟨0, 0⟩ 2 = some (0, ⟨1, 0⟩) := by
    norm_num [getGrandMean, grandTotalStep, qdiv?]
  exact ⟨h, by rw [h]; rfl⟩

/-- Claim C3 (amended): calling `get_grand_mean` before any fold never
divides by zero, because the embedded fold increments the process-wide
count to `1` before the divisor is read; for every flow mean the call
silently returns `0.0` with count `1` and total `0`. -/
theorem claimC3_amended (m : ℚ) : getGrandMean ⟨0, 0⟩ m = some (0, ⟨1, 0⟩) := by
  norm_num [getGrandMean, grandTotalStep, qdiv?]

/-- Claim C2 counterexample: on a flow with an empty timing series the
coefficient of variation is `1`, not the sentinel `-1` the claim
states: the mean is `-1`, which passes the `mean != 0` guard, and the
division `(-1) / (-1)` is performed. -/
theorem claimC2_counterexample :
    TimeDiff.get_dif emptyFlow = [] ∧ TimeDiff.get_cov emptyFlow = 1 ∧ (1 : ℝ) ≠ -1 := by
  refine ⟨rfl, ?_, by norm_num⟩
  have hm : TimeDiff.get_mean emptyFlow = -1 := by
    norm_num [TimeDiff.get_mean, TimeDiff.get_dif, TimeDiff.getDifAux, emptyFlow]
  have hs : TimeDiff.get_std emptyFlow = -1 := by
    norm_num [TimeDiff.get_std, TimeDiff.get_dif, TimeDiff.getDifAux, emptyFlow]
  norm_num [TimeDiff.get_cov, hm, hs]

/-- Claim C2 (amended): for every flow whose timing series is empty,
`mean`, `variance`, `std` and `mode` each return the sentinel `-1`,
while the coefficient of variation returns `1` (the `-1` std divided by
the `-1` mean), because the zero-mean guard does not treat the empty
series specially. -/
theorem claimC2_amended (f : Flow) (h : TimeDiff.get_dif f = []) :
    TimeDiff.get_mean f = -1 ∧ TimeDiff.get_var f = -1 ∧ TimeDiff.get_std f = -1 ∧
    TimeDiff.get_mode f = -1 ∧ TimeDiff.get_cov f = 1 := by
  have hm : TimeDiff.get_mean f = -1 := by simp [TimeDiff.get_mean, h]
  have hv : TimeDiff.get_var f = -1 := by simp [TimeDiff.get_var, h]
  have hs : TimeDiff.get_std f = -1 := by simp [TimeDiff.get_std, h]
  have hmo : TimeDiff.get_mode f = -1 := by simp [TimeDiff.get_mode, h]
  refine ⟨hm, hv, hs, hmo, ?_⟩
  norm_num [TimeDiff.get_cov, hm, hs]

/-- Claim C2 witness: the packet-less flow has an empty series, and on
it the amended statement evaluates as proved. -/
theorem claimC2_witness :
    TimeDiff.get_dif emptyFlow = [] ∧ TimeDiff.get_mean emptyFlow = -1 ∧
    TimeDiff.get_cov emptyFlow = 1 :=
  ⟨rfl, (claimC2_amended emptyFlow rfl).1, (claimC2_amended emptyFlow rfl).2.2.2.2⟩

/-- Claim C10: for every flow whose timing series is empty, the
mode-based skew returns `0.0` rather than either sentinel: mean and
mode are both `-1`, so their difference is `0`, and the std is `-1`,
which is nonzero, so the guarded division `0 / -1` is performed. -/
theorem claimC10_skew2_empty (f : Flow) (h : TimeDiff.get_dif f = []) :
    TimeDiff.get_mean f = -1 ∧ TimeDiff.get_mode f = -1 ∧ TimeDiff.get_std f = -1 ∧
    TimeDiff.get_skew2 f = 0 := by
  have hm : TimeDiff.get_mean f = -1 := by simp [TimeDiff.get_mean, h]
  have hs : TimeDiff.get_std f = -1 := by simp [TimeDiff.get_std, h]
  have hmo : TimeDiff.get_mode f = -1 := by simp [TimeDiff.get_mode, h]
  refine ⟨hm, hmo, hs, ?_⟩
  norm_num [TimeDiff.get_skew2, hm, hmo, hs]

/-- Claim C10 witness: the packet-less flow has an empty series, and
its mode-based skew is `0`. -/
theorem claimC10_witness :
    TimeDiff.get_dif emptyFlow = [] ∧ TimeDiff.get_skew2 emptyFlow = 0 :=
  ⟨rfl, (claimC10_skew2_empty emptyFlow rfl).2.2.2⟩

/-- Claim C6: for every flow whose timing series is non-empty and has
standard deviation `0`, both the median-based skew and the mode-based
skew return the sentinel `-10`. -/
theorem claimC6_zero_std_skews (f : Flow) (_h1 : TimeDiff.get_dif f ≠ [])
    (h2 : TimeDiff.get_std f = 0) :
    TimeDiff.get_skew f = -10 ∧ TimeDiff.get_skew2 f = -10 := by
  constructor <;> simp [TimeDiff.get_skew, TimeDiff.get_skew2, h2]

/-- Claim C6 witness: the flow with timing series `[1, 1]` has a
non-empty series of identical deltas, zero standard deviation, and both
skews equal to `-10`. -/
theorem claimC6_witness :
    TimeDiff.get_skew eqFlow = -10 ∧ TimeDiff.get_skew2 eqFlow = -10 := by
  have hd : TimeDiff.get_dif eqFlow = [1, 1] := by
    norm_num [TimeDiff.get_dif, TimeDiff.getDifAux, eqFlow]
    decide
  have hne : TimeDiff.get_dif eqFlow ≠ [] := by simp [hd]
  have hv : TimeDiff.get_var eqFlow = 0 := by
    norm_num [TimeDiff.get_var, hd, popVar, listMean]
  have hs : TimeDiff.get_std eqFlow = 0 := by
    rw [get_std_of_ne_nil _ hne, hv]
    norm_num
  exact claimC6_zero_std_skews eqFlow hne hs

/-- Claim C7: for every flow with a non-empty timing series, the std
operation equals the square root of the variance operation, and the
variance operation is the population variance of the series. -/
theorem claimC7_std_sqrt_var (f : Flow) (h : TimeDiff.get_dif f ≠ []) :
    TimeDiff.get_std f = Real.sqrt ((TimeDiff.get_var f : ℚ) : ℝ) ∧
    TimeDiff.get_var f = popVar (TimeDiff.get_dif f) :=
  ⟨get_std_of_ne_nil f h, by simp [TimeDiff.get_var, List.length_eq_zero, h]⟩

/-- Claim C7 witness: the flow with series `[1, 1]` is non-empty and its
std is the square root of its variance. -/
theorem claimC7_witness :
    TimeDiff.get_dif eqFlow ≠ [] ∧
    TimeDiff.get_std eqFlow = Real.sqrt ((TimeDiff.get_var eqFlow : ℚ) : ℝ) := by
  have hd : TimeDiff.get_dif eqFlow = [1, 1] := by
    norm_num [TimeDiff.get_dif, TimeDiff.getDifAux, eqFlow]
    decide
  have hne : TimeDiff.get_dif eqFlow ≠ [] := by simp [hd]
  exact ⟨hne, (claimC7_std_sqrt_var eqFlow hne).1⟩

/-- Claim C4: a flow whose packets arrive at timestamps 0.0 (Forward),
0.1 (Reverse), 0.2 (Forward), 0.5 (Reverse) has timing series
`[0.1, 0.3]`, mean `0.2`, variance `0.01`, std `0.1`, median `0.2`,
skew-from-median `0` and coefficient of variation `0.5`. -/
theorem claimC4_end_to_end (f : Flow)
    (h : f.packets = [(⟨0⟩, PacketDirection.FORWARD), (⟨1/10⟩, PacketDirection.REVERSE),
      (⟨2/10⟩, PacketDirection.FORWARD), (⟨5/10⟩, PacketDirection.REVERSE)]) :
    TimeDiff.get_dif f = [1/10, 3/10] ∧
    TimeDiff.get_mean f = 1/5 ∧
    TimeDiff.get_var f = 1/100 ∧
    TimeDiff.get_std f = 1/10 ∧
    TimeDiff.get_median f = 1/5 ∧
    TimeDiff.get_skew f = 0 ∧
    TimeDiff.get_cov f = 1/2 := by
  have hd : TimeDiff.get_dif f = [1/10, 3/10] := by
    rw [TimeDiff.get_dif, h]
    norm_num [TimeDiff.getDifAux]
    decide
  have hne : TimeDiff.get_dif f ≠ [] := by simp [hd]
  have hm : TimeDiff.get_mean f = 1/5 := by
    norm_num [TimeDiff.get_mean, hd, listMean]
  have hv : TimeDiff.get_var f = 1/100 := by
    norm_num [TimeDiff.get_var, hd, popVar, listMean]
  have hs : TimeDiff.get_std f = 1/10 := by
    rw [get_std_of_ne_nil _ hne, hv]
    rw [show (((1 : ℚ)/100 : ℚ) : ℝ) = (1/10 : ℝ) ^ 2 by push_cast; norm_num]
    exact Real.sqrt_sq (by norm_num)
  have hmed : TimeDiff.get_median f = 1/5 := by
    norm_num [TimeDiff.get_median, hd, listMedian, List.insertionSort, List.orderedInsert]
  have hskew : TimeDiff.get_skew f = 0 := by
    norm_num [TimeDiff.get_skew, hm, hmed, hs]
  have hcov : TimeDiff.get_cov f = 1/2 := by
    norm_num [TimeDiff.get_cov, hm, hs]
  exact ⟨hd, hm, hv, hs, hmed, hskew, hcov⟩

/-- Claim C4 witness: the end-to-end statement evaluated on the
concrete flow with those four packets. -/
theorem claimC4_witness :
    TimeDiff.get_dif c4flow = [1/10, 3/10] ∧ TimeDiff.get_cov c4flow = 1/2 :=
  ⟨(claimC4_end_to_end c4flow rfl).1, (claimC4_end_to_end c4flow rfl).2.2.2.2.2.2⟩

/-- Helper: the list of multiplicities of a non-empty list attains
`maxCount` as its maximum. -/
lemma maximum_map_count (s : List ℚ) (hs : s ≠ []) :
    (s.map fun y => s.count y).maximum = (maxCount s : WithBot ℕ) := by
  have hne : (s.map fun y => s.count y) ≠ [] := by simpa using hs
  obtain ⟨M, hM⟩ := WithBot.ne_bot_iff_exists.mp (List.maximum_ne_bot_of_ne_nil hne)
  rw [maxCount, ← hM, WithBot.unbot'_coe]
  rfl

/-- Helper: every member's multiplicity is at most `maxCount`. -/
lemma count_le_maxCount (s : List ℚ) (x : ℚ) (hx : x ∈ s) :
    s.count x ≤ maxCount s := by
  have h := List.maximum_eq_coe_iff.mp (maximum_map_count s (List.ne_nil_of_mem hx))
  exact h.2 _ (List.mem_map_of_mem _ hx)

/-- Helper: some member of a non-empty list attains `maxCount`. -/
lemma exists_count_eq_maxCount (s : List ℚ) (hs : s ≠ []) :
    ∃ y ∈ s, s.count y = maxCount s := by
  have h := List.maximum_eq_coe_iff.mp (maximum_map_count s hs)
  obtain ⟨y, hy, hcy⟩ := List.mem_map.mp h.1
  exact ⟨y, hy, hcy⟩

/-- Helper: on a non-empty list, `listMode` is a member of maximal
multiplicity and is the least member among those of maximal
multiplicity. -/
lemma listMode_spec (s : List ℚ) (hs : s ≠ []) :
    listMode s ∈ s ∧ s.count (listMode s) = maxCount s ∧
      ∀ x ∈ s, s.count x = maxCount s → listMode s ≤ x := by
  obtain ⟨y, hy, hcy⟩ := exists_count_eq_maxCount s hs
  have hyt : y ∈ s.filter fun x => s.count x == maxCount s :=
    List.mem_filter.mpr ⟨hy, by simp [hcy]⟩
  have htne : (s.filter fun x => s.count x == maxCount s) ≠ [] := List.ne_nil_of_mem hyt
  obtain ⟨m, hm⟩ := WithTop.ne_top_iff_exists.mp (List.minimum_ne_top_of_ne_nil htne)
  have hmode : listMode s = m := by
    rw [listMode, ← hm, WithTop.untop'_coe]
  obtain ⟨hmt, hmin⟩ := List.minimum_eq_coe_iff.mp hm.symm
  obtain ⟨hms, hmc⟩ := List.mem_filter.mp hmt
  refine ⟨hmode ▸ hms, hmode ▸ (by simpa using hmc), ?_⟩
  intro x hx hcx
  rw [hmode]
  exact hmin x (List.mem_filter.mpr ⟨hx, by simp [hcx]⟩)

/-- Claim C8: on every flow with a non-empty timing series the mode
operation returns a most frequent value of the series, and among
equally frequent values it returns the smallest; in particular on the
flow whose series is `[1, 1, 2, 2]` the mode is `1`. -/
theorem claimC8_mode_tie_break :
    (∀ f : Flow, TimeDiff.get_dif f ≠ [] →
      TimeDiff.get_mode f ∈ TimeDiff.get_dif f ∧
      (∀ x ∈ TimeDiff.get_dif f,
        (TimeDiff.get_dif f).count x ≤ (TimeDiff.get_dif f).count (TimeDiff.get_mode f)) ∧
      (∀ x ∈ TimeDiff.get_dif f,
        (TimeDiff.get_dif f).count x = (TimeDiff.get_dif f).count (TimeDiff.get_mode f) →
          TimeDiff.get_mode f ≤ x)) ∧
    TimeDiff.get_mode modeFlow = 1 := by
  constructor
  · intro f hf
    have hmode : TimeDiff.get_mode f = listMode (TimeDiff.get_dif f) := by
      simp [TimeDiff.get_mode, List.length_eq_zero, hf]
    obtain ⟨h1, h2, h3⟩ := listMode_spec _ hf
    rw [hmode]
    refine ⟨h1, fun x hx => ?_, fun x hx hcx => ?_⟩
    · rw [h2]
      exact count_le_maxCount _ _ hx
    · exact h3 x hx (by rw [hcx, h2])
  · have hd : TimeDiff.get_dif modeFlow = [1, 1, 2, 2] := by
      norm_num [TimeDiff.get_dif, TimeDiff.getDifAux, modeFlow]
      decide
    have hmode : TimeDiff.get_mode modeFlow = listMode [1, 1, 2, 2] := by
      simp [TimeDiff.get_mode, hd]
    rw [hmode]
    decide

/-- Claim C8 witness: the flow whose series is `[1, 1, 2, 2]` is
non-empty and its mode is a member of maximal multiplicity. -/
theorem claimC8_witness :
    TimeDiff.get_dif modeFlow ≠ [] ∧ TimeDiff.get_mode modeFlow ∈ TimeDiff.get_dif modeFlow := by
  have hd : TimeDiff.get_dif modeFlow = [1, 1, 2, 2] := by
    norm_num [TimeDiff.get_dif, TimeDiff.getDifAux, modeFlow]
    decide
  have hne : TimeDiff.get_dif modeFlow ≠ [] := by simp [hd]
  exact ⟨hne, (claimC8_mode_tie_break.1 modeFlow hne).1⟩

end DoHlyzer
